import Mathlib

/-!
Verification of the VAPv1 voltage-log analyzer.

The analyzer (src/index.tsx bundle: `services/parser` + `App`) parses OCPP-style
charger logs into `VoltagePoint`s, folds them into per-second `VoltageTriplet`s,
classifies each triplet against voltage thresholds, links triplets to charging
sessions, and computes aggregate statistics with a risk level.

This file is a shallow embedding of that code:
* JavaScript numbers are idealized as `ℚ` (all concrete values in the claims are
  exact in ℚ; no claim depends on float rounding).
* JSON values are modeled by the inductive `Jv`; behavior of JavaScript
  builtins that the code merely passes through (`new Date(string)` parsing,
  `parseFloat`, `String()` rendering of non-literal values) is abstracted into
  an oracle environment `JsEnv`, while every branch the repository's own code
  takes (truthiness tests, `??`/`||` defaulting, bounds checks, loop structure)
  is transcribed exactly.
* Fallible JavaScript operations (property access on `null`, `for‥of` over a
  non-iterable) are modeled with `Except String`, so a thrown `TypeError`
  appears as an `.error` value.
* Incident strings are modeled as `List Char` messages: the literal prefixes
  pushed by the code are kept verbatim, the interpolated tails (which use JS
  `toString`) are produced by the oracle.
-/

namespace VAP

/-! ### Layer A: the typed pipeline (types.ts + parser post-extraction code) -/

inductive Phase where
  | L1 | L2 | L3
deriving DecidableEq, Repr

inductive Status where
  | ok | over | under | imbalance
deriving DecidableEq, Repr

inductive Session where
  | session | idle
deriving DecidableEq, Repr

/-- A deviation entry. The source pushes the strings `"High"`, `"Low"` and
`` `Δ ${t.delta.toFixed(0)}V` ``; we keep them structured (the delta entry
carries the delta value that is interpolated). -/
inductive Deviation where
  | high | low | deltaDev (d : ℚ)
deriving DecidableEq, Repr

/-- `VoltagePoint` from types.ts (dataset, connectorId, phase, ts, voltage). -/
structure VoltagePoint where
  dataset : String
  connectorId : ℚ
  phase : Phase
  ts : ℚ
  voltage : ℚ
deriving DecidableEq, Repr

/-- `VoltageTriplet` from types.ts. The device/session enrichment fields that no
claim mentions (`sessionStatus`, `sessionErrorCode`, vendor/model/firmware,
controller and connector type) are not modeled; `id` is represented by the key
triple `(dataset, connectorId, ts)` rather than the interpolated string
`` `${dataset}|${connectorId}|${ts}` `` (injective for numeric ids/timestamps). -/
structure VoltageTriplet where
  ts : ℚ
  dataset : String
  connectorId : ℚ
  L1 : Option ℚ
  L2 : Option ℚ
  L3 : Option ℚ
  delta : ℚ
  status : Status
  session : Session
  sessionId : Option String
  idTag : Option String
  deviationDetails : List Deviation
deriving DecidableEq, Repr

/-- `[t.L1, t.L2, t.L3].filter(v => v !== null)`. -/
def presentVals (t : VoltageTriplet) : List ℚ :=
  [t.L1, t.L2, t.L3].filterMap id

/-- `evaluateStatus` (parser lines 96–119): sequential status escalation.
`over` wins over `under`, which wins over `imbalance`; with no present phases
everything is skipped and `('ok', [])` is returned. -/
def evaluateStatus (t : VoltageTriplet) (vmin vmax : ℚ) : Status × List Deviation :=
  let vals := presentVals t
  if vals.isEmpty then (Status.ok, [])
  else
    let overs := vals.filter (fun v => decide (vmax < v))
    let unders := vals.filter (fun v => decide (v < vmin))
    let st1 : Status := if overs.isEmpty then .ok else .over
    let dev1 : List Deviation := if overs.isEmpty then [] else [.high]
    let st2 : Status := if unders.isEmpty then st1 else (if st1 = .over then st1 else .under)
    let dev2 : List Deviation := if unders.isEmpty then dev1 else dev1 ++ [.low]
    let st3 : Status := if 15 ≤ t.delta then (if st2 = .ok then .imbalance else st2) else st2
    let dev3 : List Deviation := if 15 ≤ t.delta then dev2 ++ [.deltaDev t.delta] else dev2
    (st3, dev3)

/-! ### Session spans and session matching (parser lines 607–621) -/

/-- A connector's transaction span (`txSpansByConn` entry). -/
structure TxSpanA where
  tx : String
  startTs : ℚ
  endTs : ℚ
  idTag : Option String
deriving DecidableEq, Repr

/-- The matching condition `t.ts + 60000 >= s.startTs && t.ts <= s.endTs + 60000`. -/
def spanMatches (ts : ℚ) (s : TxSpanA) : Prop :=
  s.startTs ≤ ts + 60000 ∧ ts ≤ s.endTs + 60000

instance (ts : ℚ) (s : TxSpanA) : Decidable (spanMatches ts s) := by
  unfold spanMatches; infer_instance

/-- The `for (let i = spans.length - 1; i >= 0; i--)` loop body, taking the
spans already reversed into latest-`startTs`-first scan order: return the first
match; stop scanning as soon as a (non-matching) span starts more than
10 minutes before the triplet. -/
def findActiveRev (ts : ℚ) : List TxSpanA → Option TxSpanA
  | [] => none
  | s :: rest =>
    if spanMatches ts s then some s
    else if s.startTs < ts - 10 * 60 * 1000 then none
    else findActiveRev ts rest

/-- Session matching over the connector's spans as stored (sorted by ascending
`startTs`, line 588); the source iterates them from the last index down. -/
def findActive (spans : List TxSpanA) (ts : ℚ) : Option TxSpanA :=
  findActiveRev ts spans.reverse

/-- The session assignment made from the scan result (lines 615–621). -/
def sessionOf (spans : List TxSpanA) (ts : ℚ) : Session × Option String :=
  match findActive spans ts with
  | some s => (Session.session, some s.tx)
  | none => (Session.idle, none)

/-! ### Folding points into triplets (parser lines 551–579) -/

/-- `Math.floor(p.ts / 1000) * 1000`. -/
def roundTs (q : ℚ) : ℚ := (⌊q / 1000⌋ : ℚ) * 1000

/-- The grouping key `` `${p.dataset}|${p.connectorId}|${roundedTs}` ``. -/
def keyOfP (p : VoltagePoint) : String × ℚ × ℚ :=
  (p.dataset, p.connectorId, roundTs p.ts)

/-- The key under which a stored triplet sits (its `ts` is already rounded). -/
def keyOfT (t : VoltageTriplet) : String × ℚ × ℚ :=
  (t.dataset, t.connectorId, t.ts)

/-- The fresh triplet created on first sight of a key (lines 561–573). -/
def freshTriplet (p : VoltagePoint) : VoltageTriplet :=
  { ts := roundTs p.ts, dataset := p.dataset, connectorId := p.connectorId,
    L1 := none, L2 := none, L3 := none, delta := 0, status := .ok,
    session := .idle, sessionId := none, idTag := none, deviationDetails := [] }

/-- Lines 576–578: store the point's voltage in its phase slot. -/
def setPhase (t : VoltageTriplet) (p : VoltagePoint) : VoltageTriplet :=
  match p.phase with
  | .L1 => { t with L1 := some p.voltage }
  | .L2 => { t with L2 := some p.voltage }
  | .L3 => { t with L3 := some p.voltage }

/-- One iteration of the `for (const p of points)` loop over the insertion-order
`tripletMap` (modeled as a list of triplets; the key of an entry is `keyOfT`):
update the entry with the point's key in place, or append a fresh one. -/
def addPoint : List VoltageTriplet → VoltagePoint → List VoltageTriplet
  | [], p => [setPhase (freshTriplet p) p]
  | t :: rest, p =>
    if keyOfT t = keyOfP p then setPhase t p :: rest
    else t :: addPoint rest p

/-- `points.sort((a, b) => a.ts - b.ts)` (line 551), as a stable sort by `ts`. -/
def sortPoints (points : List VoltagePoint) : List VoltagePoint :=
  points.insertionSort (fun a b => a.ts ≤ b.ts)

/-- Lines 551–579: sort the points, then fold them into the triplet map. -/
def buildTriplets (points : List VoltagePoint) : List VoltageTriplet :=
  (sortPoints points).foldl addPoint []

/-- Bool-valued membership of a key in the triplet map. -/
def containsK (m : List VoltageTriplet) (k : String × ℚ × ℚ) : Bool :=
  m.any (fun t => decide (keyOfT t = k))

/-- The keys of the triplet map, in insertion order. -/
def keysOf (m : List VoltageTriplet) : List (String × ℚ × ℚ) :=
  m.map keyOfT

/-- Number of stored triplets carrying a key. -/
def countK (m : List VoltageTriplet) (k : String × ℚ × ℚ) : Nat :=
  m.countP (fun t => decide (keyOfT t = k))

/-- Lookup of the stored triplet for a key. -/
def lookupK (m : List VoltageTriplet) (k : String × ℚ × ℚ) : Option VoltageTriplet :=
  m.find? (fun t => decide (keyOfT t = k))

/-- Whether the given phase slot of a triplet is populated. -/
def phP (t : VoltageTriplet) : Phase → Bool
  | .L1 => t.L1.isSome
  | .L2 => t.L2.isSome
  | .L3 => t.L3.isSome

/-! ### Finalizing triplets (parser lines 591–653) -/

/-- Lines 593–653 for a single map entry: skip if no phase is present, else
compute `delta`, evaluate status, and link the session via the span scan.
The best-effort context attachment (vendor/model/firmware, connector type,
status timeline) touches only fields not modeled here. -/
def finalizeOne (vmin vmax : ℚ) (spansByConn : ℚ → List TxSpanA)
    (t : VoltageTriplet) : Option VoltageTriplet :=
  let vals := presentVals t
  if vals.isEmpty then none
  else
    let minV := vals.foldl min (vals.headD 0)
    let maxV := vals.foldl max (vals.headD 0)
    let t1 := { t with delta := if 1 < vals.length then maxV - minV else 0 }
    let ev := evaluateStatus t1 vmin vmax
    let t2 := { t1 with status := ev.1, deviationDetails := ev.2 }
    match findActive (spansByConn t.connectorId) t.ts with
    | some s =>
      let t3 := { t2 with session := .session, sessionId := some s.tx }
      some (match s.idTag with
            | some tag => if tag = "" then t3 else { t3 with idTag := some tag }
            | none => t3)
    | none => some { t2 with session := .idle }

/-- The file's final triplet list (fold, finalize, sort by `ts`, line 660). -/
def parsedTriplets (vmin vmax : ℚ) (spansByConn : ℚ → List TxSpanA)
    (points : List VoltagePoint) : List VoltageTriplet :=
  ((buildTriplets points).filterMap (finalizeOne vmin vmax spansByConn)).insertionSort
    (fun a b => a.ts ≤ b.ts)

/-! ### Aggregate statistics (App.tsx `allData` + `analysisStats`) -/

inductive RiskLevel where
  | low | medium | high
deriving DecidableEq, Repr

/-- The slice of `FileData` that `allData`/`analysisStats` read: `enabled`,
`triplets`, and the `parsingErrors` incident log (messages as char lists). -/
structure FileDataM where
  name : String
  enabled : Bool
  triplets : List VoltageTriplet
  parsingErrors : List (List Char)
deriving DecidableEq, Repr

/-- App lines 726–730: re-evaluate a stored triplet against current settings. -/
def reEvalTriplet (vmin vmax : ℚ) (t : VoltageTriplet) : VoltageTriplet :=
  let ev := evaluateStatus t vmin vmax
  { t with status := ev.1, deviationDetails := ev.2 }

/-- App `allData` (lines 722–732): enabled files' triplets, re-evaluated,
sorted by time. -/
def allDataOf (files : List FileDataM) (vmin vmax : ℚ) : List VoltageTriplet :=
  ((((files.filter (fun f => f.enabled)).map (fun f => f.triplets)).flatten).map
      (reEvalTriplet vmin vmax)).insertionSort (fun a b => a.ts ≤ b.ts)

/-- The counters mutated by the `for (const t of allData)` loop, plus the
fields fixed beforehand. Per-phase min/max/avg/under/over/zero stats are not
modeled (no claim mentions them). -/
structure StatsM where
  cntUnder : Nat
  cntOver : Nat
  cntImbalance : Nat
  cntDeepDip : Nat
  cntInvalidDates : Nat
  maxDelta : ℚ
  riskLevel : RiskLevel
deriving DecidableEq, Repr

/-- App lines 767–787, one triplet: bump the status counters, track `maxDelta`,
and — inside the per-phase `forEach`, i.e. once per present phase value — bump
`cntDeepDip` when that value is `< 190`. -/
def statsFold (s : StatsM) (t : VoltageTriplet) : StatsM :=
  { s with
    cntUnder := s.cntUnder + (if t.status = .under then 1 else 0),
    cntOver := s.cntOver + (if t.status = .over then 1 else 0),
    cntImbalance := s.cntImbalance + (if t.status = .imbalance then 1 else 0),
    maxDelta := if s.maxDelta < t.delta then t.delta else s.maxDelta,
    cntDeepDip := s.cntDeepDip + (presentVals t).countP (fun v => decide (v < 190)) }

/-- App `analysisStats` (lines 735–801): initial stats carry the summed
parsing-error count and `riskLevel = low`; with an empty `allData` the function
returns early (before risk classification); otherwise the loop runs and the
risk precedence chain of lines 794–798 is applied. -/
def analysisStats (files : List FileDataM) (vmin vmax : ℚ) : StatsM :=
  let allData := allDataOf files vmin vmax
  let totalParsingErrors :=
    (((files.filter (fun f => f.enabled)).map (fun f => f.parsingErrors.length)).sum)
  let s0 : StatsM :=
    { cntUnder := 0, cntOver := 0, cntImbalance := 0, cntDeepDip := 0,
      cntInvalidDates := totalParsingErrors, maxDelta := 0, riskLevel := .low }
  if allData.isEmpty then s0
  else
    let s1 := allData.foldl statsFold s0
    let totalViolations := s1.cntUnder + s1.cntOver + s1.cntImbalance
    { s1 with
      riskLevel :=
        if 0 < s1.cntDeepDip ∨ 30 < s1.maxDelta ∨ 100 < s1.cntInvalidDates then .high
        else if 50 < totalViolations ∨ 10 < s1.cntInvalidDates then .medium
        else .low }

/-- Spec-side definition for claim C6 (follows the claim's words, to be compared
with the engine): the number of triplets containing at least one present phase
value strictly below 190, each such triplet counted once. -/
def deepDipTripletCount (files : List FileDataM) (vmin vmax : ℚ) : Nat :=
  (allDataOf files vmin vmax).countP (fun t => (presentVals t).any (fun v => decide (v < 190)))

/-! ### Layer B: JSON values and the raw message handlers -/

/-- A parsed JSON value (`JSON.parse` output; `undefined` is represented by
`Option.none` at use sites). -/
inductive Jv where
  | null
  | bool (b : Bool)
  | num (q : ℚ)
  | str (s : String)
  | arr (elems : List Jv)
  | obj (fields : List (String × Jv))

/-- JavaScript truthiness of a parsed JSON value (`NaN` cannot result from
`JSON.parse` and is not modeled). -/
def jvTruthy : Jv → Bool
  | .null => false
  | .bool b => b
  | .num q => decide (q ≠ 0)
  | .str s => decide (s ≠ "")
  | .arr _ => true
  | .obj _ => true

/-- Property access `v.k` on a value known not to be `null`/`undefined`:
objects look the key up, primitives and arrays yield `undefined` for the keys
used by the parser. -/
def jvGet : Jv → String → Option Jv
  | .obj fields, k => (fields.find? (fun f => decide (f.1 = k))).map (fun f => f.2)
  | _, _ => none

/-- Property access that can throw: `null.k` raises a `TypeError`. -/
def jvGetE : Jv → String → Except String (Option Jv)
  | .null, _ => .error "TypeError: cannot read properties of null"
  | v, k => .ok (jvGet v k)

/-- `v.k` squashed through `??`: a present-but-`null` field counts as absent
(nullish), so `a ?? b` chains become `<|>` chains over this. -/
def nullishGet (v : Jv) (k : String) : Option Jv :=
  match jvGet v k with
  | some .null => none
  | r => r

/-- `for (const x of v)` on a truthy value: arrays iterate their elements,
strings iterate their characters (as 1-character strings); every other value
is not iterable and throws. -/
def iterOf : Jv → Except String (List Jv)
  | .arr elems => .ok elems
  | .str s => .ok (s.data.map (fun c => Jv.str (String.mk [c])))
  | _ => .error "TypeError: value is not iterable"

/-- Oracle environment for JavaScript builtins the repository code calls but
does not implement: `new Date(string)` parsing, `new Date(other)` coercion,
`String()` rendering of numbers/arrays/objects, `parseFloat`, and the
interpolated tails of incident messages. `Option ℚ` results use `none` for
`NaN`/invalid. -/
structure JsEnv where
  dateOfString : String → Option ℚ
  dateOfOther : Jv → Option ℚ
  showSpecial : Jv → String
  toNumOther : Jv → Option ℚ
  parseFloatStr : List Char → Option ℚ
  invalidTsDetail : Option Jv → Nat → List Char
  suspiciousTsDetail : Option Jv → ℚ → Nat → List Char
  suspiciousStatusDetail : Jv → ℚ → Nat → List Char

/-- `String(v)` coercion (`undefined` renders as "undefined"); literal cases
are exact, numbers/arrays/objects go to the oracle. -/
def jvToStr (env : JsEnv) : Option Jv → String
  | none => "undefined"
  | some .null => "null"
  | some (.bool true) => "true"
  | some (.bool false) => "false"
  | some (.str s) => s
  | some v => env.showSpecial v

/-- `Number(v)` coercion; literal cases are exact, the rest go to the oracle. -/
def toNumber (env : JsEnv) : Jv → Option ℚ
  | .num q => some q
  | .null => some 0
  | .bool b => some (if b then 1 else 0)
  | v => env.toNumOther v

/-- `parseISO` (parser lines 82–90) applied to a field value: `!t` rejects
`undefined`, `null`, `false`, `0` and `""`; a (nonzero) number is returned
as-is; a (nonempty) string goes through `new Date(string)`; other values go
through `new Date`'s coercion (oracle). -/
def parseISO (env : JsEnv) : Option Jv → Option ℚ
  | none => none
  | some .null => none
  | some (.bool false) => none
  | some (.num q) => if q = 0 then none else some q
  | some (.str s) => if s = "" then none else env.dateOfString s
  | some v => env.dateOfOther v

/-- `MIN_REASONABLE_TS = Date.UTC(2015, 0, 1)` (line 93). -/
def MIN_REASONABLE_TS : ℚ := 1420070400000

/-- `MAX_REASONABLE_TS() = Date.now() + 7 days` (line 94), with `Date.now()`
passed in as `now`. -/
def maxReasonableTs (now : ℚ) : ℚ := now + 7 * 24 * 60 * 60 * 1000

/-- The literal prefix of meter-sample invalid-timestamp incidents (line 505). -/
def invalidMarker : List Char := "Invalid timestamp".data

/-- The literal prefix of meter-sample suspicious-timestamp incidents (line 511). -/
def suspiciousMarker : List Char := "Suspicious timestamp".data

/-- `` `Invalid timestamp: "${mv.timestamp}" near char ${pos}` ``: literal
prefix plus oracle-rendered tail. -/
def msgInvalid (env : JsEnv) (raw : Option Jv) (pos : Nat) : List Char :=
  invalidMarker ++ env.invalidTsDetail raw pos

/-- `` `Suspicious timestamp: "${mv.timestamp}" -> ${…toISOString()} near char ${pos}` ``. -/
def msgSuspicious (env : JsEnv) (raw : Option Jv) (dt : ℚ) (pos : Nat) : List Char :=
  suspiciousMarker ++ env.suspiciousTsDetail raw dt pos

/-- `` `Suspicious timestamp (StatusNotification): …` `` (line 432): also begins
with the `Suspicious timestamp` prefix. -/
def msgSuspiciousStatus (env : JsEnv) (obj : Jv) (dt : ℚ) (pos : Nat) : List Char :=
  suspiciousMarker ++ (" (StatusNotification)".data ++ env.suspiciousStatusDetail obj dt pos)

/-- `normPhase` (lines 72–79) applied to an already-stringified phase name:
empty strings are falsy and rejected; otherwise uppercase and look for the
substrings L1/L2/L3 in that order. -/
def strHasSub (pat s : List Char) : Bool :=
  match s with
  | [] => pat.isEmpty
  | _ :: t => pat.isPrefixOf s || strHasSub pat t

def normPhase (s : String) : Option Phase :=
  if s = "" then none
  else
    let u := s.data.map Char.toUpper
    if strHasSub "L1".data u then some .L1
    else if strHasSub "L2".data u then some .L2
    else if strHasSub "L3".data u then some .L3
    else none

/-- `m === 'Voltage' || /^Voltage(\.L[123])?$/i.test(m)` (line 527). -/
def isVoltageMeasurand (m : String) : Bool :=
  decide (m = "Voltage") ||
    (let u := m.data.map Char.toUpper
     decide (u = "VOLTAGE".data) || decide (u = "VOLTAGE.L1".data) ||
       decide (u = "VOLTAGE.L2".data) || decide (u = "VOLTAGE.L3".data))

/-- `String.prototype.replace(',', '.')`: first occurrence only. -/
def replaceFirstComma : List Char → List Char
  | [] => []
  | c :: t => if c = ',' then '.' :: t else c :: replaceFirstComma t

/-- `split('.')` on a character list. -/
def splitOnDot : List Char → List (List Char)
  | [] => [[]]
  | c :: t =>
    if c = '.' then [] :: splitOnDot t
    else
      match splitOnDot t with
      | [] => [[c]]
      | seg :: rest => (c :: seg) :: rest

/-- `String(x).split('.').pop()`. -/
def lastDotSegment (s : String) : String :=
  String.mk ((splitOnDot s.data).getLastD [])

/-- A raw extracted voltage point: `connectorId` is whatever
`obj.connectorId || 1` produced (the source never coerces it to a number). -/
structure JvPoint where
  dataset : String
  connectorId : Jv
  phase : Phase
  ts : ℚ
  voltage : ℚ

/-- A transaction span accumulated in `txSpansByTx` (lines 282, 516–523). -/
structure TxSpanB where
  tx : String
  connectorId : Jv
  startTs : ℚ
  endTs : ℚ
  idTag : Option String

/-- The mutable context the MeterValues loop writes into. -/
structure PCtx where
  points : List JvPoint
  parsingErrors : List (List Char)
  txSpans : List (String × TxSpanB)

/-- `const conn = obj.connectorId || 1` (line 497): a falsy or absent
connector id falls back to `1`; any truthy value is kept as-is. -/
def resolveMeterConn : Option Jv → Jv
  | some v => if jvTruthy v then v else .num 1
  | none => .num 1

/-- Lines 516–523: widen (or create) the transaction span for key
`String(tx)` to include `dt`, and overwrite its connector id. -/
def updateSpan (conn : Jv) (dt : ℚ) (key : String) :
    List (String × TxSpanB) → List (String × TxSpanB)
  | [] => [(key, { tx := key, connectorId := conn, startTs := dt, endTs := dt, idTag := none })]
  | (k, sp) :: rest =>
    if k = key then
      (k, { sp with startTs := min sp.startTs dt, endTs := max sp.endTs dt,
                    connectorId := conn }) :: rest
    else (k, sp) :: updateSpan conn dt key rest

/-- Lines 525–545, one `sampledValue` element: filter by measurand, resolve the
phase (explicit field or measurand suffix), parse the value with a decimal
comma allowed, and accept it if the phase resolved, the value is numeric and
`< 600`. Property access on a `null` element throws. -/
def processSample (env : JsEnv) (dataset : String) (conn : Jv) (dt : ℚ)
    (sv : Jv) : Except String (List JvPoint) := do
  let mRaw ← jvGetE sv "measurand"
  let m : String :=
    match mRaw with
    | some v => if jvTruthy v then jvToStr env (some v) else ""
    | none => ""
  if isVoltageMeasurand m then
    let phRaw ← jvGetE sv "phase"
    let phaseStr : String :=
      match phRaw with
      | some v =>
        if jvTruthy v then jvToStr env (some v)
        else lastDotSegment (jvToStr env mRaw)
      | none => lastDotSegment (jvToStr env mRaw)
    let phase := normPhase phaseStr
    let vRaw ← jvGetE sv "value"
    let vStr : String :=
      match vRaw with
      | some .null => ""
      | some v => jvToStr env (some v)
      | none => ""
    let val := env.parseFloatStr (replaceFirstComma vStr.data)
    match phase, val with
    | some ph, some q =>
      if q < 600 then
        pure [{ dataset := dataset, connectorId := conn, phase := ph, ts := dt, voltage := q }]
      else pure []
    | _, _ => pure []
  else pure []

/-- The inner `for (const sv of (mv.sampledValue || []))` loop (lines
525–545): accumulate the accepted points, propagating any thrown error. -/
def processSamples (env : JsEnv) (dataset : String) (conn : Jv) (dt : ℚ) :
    List Jv → List JvPoint → Except String (List JvPoint)
  | [], acc => .ok acc
  | sv :: rest, acc =>
    match processSample env dataset conn dt sv with
    | .error e => .error e
    | .ok np => processSamples env dataset conn dt rest (acc ++ np)

/-- Lines 500–546, one `meterValue` element `mv`: parse its timestamp, record
an invalid/suspicious incident and skip the entry when it is unusable, else
track the transaction span and process its `sampledValue` list. -/
def processEntry (env : JsEnv) (now : ℚ) (dataset : String) (conn : Jv)
    (tx : Option Jv) (pos : Nat) (ctx : PCtx) (mv : Jv) : Except String PCtx :=
  match jvGetE mv "timestamp" with
  | .error e => .error e
  | .ok tsRaw =>
    match parseISO env tsRaw with
    | none =>
      .ok { ctx with parsingErrors := ctx.parsingErrors ++ [msgInvalid env tsRaw pos] }
    | some dt =>
      if dt < MIN_REASONABLE_TS ∨ maxReasonableTs now < dt then
        .ok { ctx with parsingErrors := ctx.parsingErrors ++ [msgSuspicious env tsRaw dt pos] }
      else
        let ctx1 : PCtx :=
          match tx with
          | some txv =>
            if jvTruthy txv then
              { ctx with txSpans := updateSpan conn dt (jvToStr env (some txv)) ctx.txSpans }
            else ctx
          | none => ctx
        match jvGetE mv "sampledValue" with
        | .error e => .error e
        | .ok svField =>
          match
            (match svField with
             | some v => if jvTruthy v then iterOf v else .ok []
             | none => .ok []) with
          | .error e => .error e
          | .ok svs =>
            match processSamples env dataset conn dt svs [] with
            | .error e => .error e
            | .ok pts => .ok { ctx1 with points := ctx1.points ++ pts }

/-- The `for (const mv of …)` loop folding `processEntry` over the entries. -/
def processEntries (env : JsEnv) (now : ℚ) (dataset : String) (conn : Jv)
    (tx : Option Jv) (pos : Nat) : PCtx → List Jv → Except String PCtx
  | ctx, [] => .ok ctx
  | ctx, mv :: rest =>
    match processEntry env now dataset conn tx pos ctx mv with
    | .error e => .error e
    | .ok ctx' => processEntries env now dataset conn tx pos ctx' rest

/-- Lines 495–547, one extracted `MeterValues` object: guarded by
`obj && obj.meterValue`, resolve the connector id and transaction id, then run
`for (const mv of (obj.meterValue || []))` — which throws when `meterValue` is
truthy but not iterable. -/
def processMeterObj (env : JsEnv) (now : ℚ) (dataset : String) (pos : Nat)
    (ctx : PCtx) (obj : Jv) : Except String PCtx :=
  if jvTruthy obj then
    match jvGet obj "meterValue" with
    | some mvField =>
      if jvTruthy mvField then
        let conn := resolveMeterConn (jvGet obj "connectorId")
        let tx : Option Jv :=
          nullishGet obj "transactionId" <|> nullishGet obj "transactionID" <|>
            nullishGet obj "transactionid"
        match iterOf mvField with
        | .error e => .error e
        | .ok mvs => processEntries env now dataset conn tx pos ctx mvs
      else .ok ctx
    | none => .ok ctx
  else .ok ctx

/-! ### StatusNotification handling (parser lines 281–293, 427–438) -/

/-- One `statusTimeline` entry. -/
structure StatusEntry where
  ts : ℚ
  status : Option String
  errorCode : Option String

/-- The state the StatusNotification handler writes into: the per-connector
timeline (keys are `Number(...)` results, `none` modeling `NaN`) and the
incident log. -/
structure StCtx where
  statusTimeline : List (Option ℚ × List StatusEntry)
  parsingErrors : List (List Char)

/-- `pushStatus` (lines 290–293): append to the connector's timeline, creating
it on first use. -/
def pushStatusEntry (conn : Option ℚ) (e : StatusEntry) :
    List (Option ℚ × List StatusEntry) → List (Option ℚ × List StatusEntry)
  | [] => [(conn, [e])]
  | (k, es) :: rest =>
    if k = conn then (k, es ++ [e]) :: rest
    else (k, es) :: pushStatusEntry conn e rest

/-- `readAnyTimestamp` (lines 284–288): reject falsy inputs, then feed the
first non-nullish of the candidate fields to `parseISO`. -/
def readAnyTimestamp (env : JsEnv) : Option Jv → Option ℚ
  | none => none
  | some v =>
    if jvTruthy v then
      parseISO env (nullishGet v "timestamp" <|> nullishGet v "timeStamp" <|>
        nullishGet v "ts" <|> nullishGet v "time" <|>
          nullishGet v "datetime" <|> nullishGet v "dateTime")
    else none

/-- `Number(obj.connectorId ?? 0)` (line 428). -/
def statusConnOf (env : JsEnv) (obj : Jv) : Option ℚ :=
  toNumber env ((nullishGet obj "connectorId").getD (.num 0))

/-- `x?.k` after a nullish source check. -/
def optChainGet (v : Option Jv) (k : String) : Option Jv :=
  match v with
  | some w => jvGet w k
  | none => none

/-- `x ? String(x) : undefined`. -/
def truthyStr (env : JsEnv) : Option Jv → Option String
  | some v => if jvTruthy v then some (jvToStr env (some v)) else none
  | none => none

/-- The StatusNotification scan handler (lines 427–438); `scan` only invokes it
on truthy extracted objects. -/
def handleStatusNotification (env : JsEnv) (now : ℚ) (pos : Nat) (ctx : StCtx)
    (obj : Jv) : StCtx :=
  let conn := statusConnOf env obj
  match readAnyTimestamp env (some obj) <|> readAnyTimestamp env (jvGet obj "payload") with
  | none => ctx
  | some ts =>
    if ts < MIN_REASONABLE_TS ∨ maxReasonableTs now < ts then
      { ctx with parsingErrors := ctx.parsingErrors ++ [msgSuspiciousStatus env obj ts pos] }
    else
      let st := nullishGet obj "status" <|> optChainGet (nullishGet obj "statusInfo") "status"
      let err := nullishGet obj "errorCode" <|> optChainGet (nullishGet obj "statusInfo") "errorCode"
      let e : StatusEntry := { ts := ts, status := truthyStr env st, errorCode := truthyStr env err }
      { ctx with statusTimeline := pushStatusEntry conn e ctx.statusTimeline }

/-! ### `extractJsonFrom` (parser lines 41–70) -/

/-- `text.indexOf(c, start)` for a single character, as an absolute index. -/
def charIndexAux (c : Char) : List Char → Nat → Option Nat
  | [], _ => none
  | x :: xs, i => if x = c then some i else charIndexAux c xs (i + 1)

def charIndexFrom (text : List Char) (c : Char) (start : Nat) : Option Nat :=
  charIndexAux c (text.drop start) start

/-- `text.slice(i, j + 1)`. -/
def sliceChars (text : List Char) (i j : Nat) : List Char :=
  (text.drop i).take (j + 1 - i)

/-- The body of the `for (let j = i; …)` scan, with `JSON.parse`+`try/catch`
abstracted as `jp : List Char → Option α`: walk the remaining characters
maintaining the brace depth and the in-string/escape flags; on the `}` that
returns the depth to zero, hand the balanced slice to `jp` (a failed parse
yields `none`, as the `catch` returns `null`). -/
def extractScan (jp : List Char → Option α) (text : List Char) (i : Nat) :
    List Char → Nat → Int → Bool → Bool → Option α
  | [], _, _, _, _ => none
  | ch :: rest, j, depth, inStr, esc =>
    if inStr then
      if esc then extractScan jp text i rest (j + 1) depth true false
      else if ch = '\\' then extractScan jp text i rest (j + 1) depth true true
      else if ch = '"' then extractScan jp text i rest (j + 1) depth false false
      else extractScan jp text i rest (j + 1) depth true false
    else
      if ch = '"' then extractScan jp text i rest (j + 1) depth true false
      else if ch = '{' then extractScan jp text i rest (j + 1) (depth + 1) false false
      else if ch = '}' then
        if depth - 1 = 0 then jp (sliceChars text i j)
        else extractScan jp text i rest (j + 1) (depth - 1) false false
      else extractScan jp text i rest (j + 1) depth false false

/-- `extractJsonFrom(text, start)`: find the first `{` at or after `start`,
then scan for the balanced span and parse it. -/
def extractJsonFrom (jp : List Char → Option α) (text : List Char) (start : Nat) : Option α :=
  match charIndexFrom text '{' start with
  | none => none
  | some i => extractScan jp text i (text.drop i) i 0 false false

/-- Parse-independent version of the scan: return the index of the closing
brace of the balanced span instead of parsing it. -/
def spanEndScan (text : List Char) :
    List Char → Nat → Int → Bool → Bool → Option Nat
  | [], _, _, _, _ => none
  | ch :: rest, j, depth, inStr, esc =>
    if inStr then
      if esc then spanEndScan text rest (j + 1) depth true false
      else if ch = '\\' then spanEndScan text rest (j + 1) depth true true
      else if ch = '"' then spanEndScan text rest (j + 1) depth false false
      else spanEndScan text rest (j + 1) depth true false
    else
      if ch = '"' then spanEndScan text rest (j + 1) depth true false
      else if ch = '{' then spanEndScan text rest (j + 1) (depth + 1) false false
      else if ch = '}' then
        if depth - 1 = 0 then some j
        else spanEndScan text rest (j + 1) (depth - 1) false false
      else spanEndScan text rest (j + 1) depth false false

/-- The closing-brace index of the balanced `{…}` span starting at `i`. -/
def spanEnd (text : List Char) (i : Nat) : Option Nat :=
  spanEndScan text (text.drop i) i 0 false false

/-! ### Concrete fixtures for witnesses and counterexamples -/

/-- A concrete oracle environment for evaluating the handlers on the claim's
concrete inputs. `new Date("1999-01-01")` is 915148800000 ms; `parseFloat` is
tabulated for the one numeric string the fixtures use; the incident-message
tails are empty (only the literal prefixes matter to any claim). -/
def envTest : JsEnv :=
  { dateOfString := fun s => if s = "1999-01-01" then some 915148800000 else none,
    dateOfOther := fun _ => none,
    showSpecial := fun _ => "",
    toNumOther := fun _ => none,
    parseFloatStr := fun l => if l = "230".data then some 230 else none,
    invalidTsDetail := fun _ _ => [],
    suspiciousTsDetail := fun _ _ _ => [],
    suspiciousStatusDetail := fun _ _ _ => [] }

/-- A fixed `Date.now()`: 2025-10-09T20:26:40Z in epoch ms. -/
def nowRef : ℚ := 1760000000000

/-- Empty MeterValues-processing context. -/
def pctx0 : PCtx := { points := [], parsingErrors := [], txSpans := [] }

/-- Empty StatusNotification context. -/
def stctx0 : StCtx := { statusTimeline := [], parsingErrors := [] }

/-- C1: two accepted voltage readings, connector 5, dataset "a.log", phases L1
and L2, timestamps 1000000 ms and 1000500 ms (same calendar second). -/
def pointsC1 : List VoltagePoint :=
  [{ dataset := "a.log", connectorId := 5, phase := .L1, ts := 1000000, voltage := 230 },
   { dataset := "a.log", connectorId := 5, phase := .L2, ts := 1000500, voltage := 231 }]

/-- C1: the single merged triplet those two readings must produce. -/
def tripletC1 : VoltageTriplet :=
  { ts := 1000000, dataset := "a.log", connectorId := 5, L1 := some 230, L2 := some 231,
    L3 := none, delta := 1, status := .ok, session := .idle, sessionId := none,
    idTag := none, deviationDetails := [] }

/-- C1: the map entry for those two readings before finalization (delta still
0, statuses defaulted). -/
def tripletC1mid : VoltageTriplet :=
  { ts := 1000000, dataset := "a.log", connectorId := 5, L1 := some 230, L2 := some 231,
    L3 := none, delta := 0, status := .ok, session := .idle, sessionId := none,
    idTag := none, deviationDetails := [] }

/-- C2: triplet with `L1 = 260` and `L2 = 200` (delta 60). -/
def tC2 : VoltageTriplet :=
  { ts := 0, dataset := "d", connectorId := 1, L1 := some 260, L2 := some 200, L3 := none,
    delta := 60, status := .ok, session := .idle, sessionId := none, idTag := none,
    deviationDetails := [] }

/-- C4: meter entry timestamped `1999-01-01` (before the plausibility window). -/
def mv1999 : Jv := .obj [("timestamp", .str "1999-01-01")]

/-- C4: meter entry with a numeric timestamp 30 days after `nowRef`. -/
def mvFuture : Jv := .obj [("timestamp", .num 1762592000000)]

/-- C5: a `MeterValues` object whose `meterValue` field is present, truthy and
not iterable. -/
def badMeterObj : Jv := .obj [("connectorId", .num 1), ("meterValue", .num 42)]

/-- C6: a triplet with two phases below 190 V. -/
def tDeep : VoltageTriplet :=
  { ts := 0, dataset := "f.log", connectorId := 1, L1 := some 180, L2 := some 185, L3 := none,
    delta := 5, status := .ok, session := .idle, sessionId := none, idTag := none,
    deviationDetails := [] }

/-- C6: one enabled file containing `tDeep`. -/
def filesC6 : List FileDataM :=
  [{ name := "f.log", enabled := true, triplets := [tDeep], parsingErrors := [] }]

/-- C7: one enabled file with 101 parsing incidents and no triplets. -/
def filesC7 : List FileDataM :=
  [{ name := "g.log", enabled := true, triplets := [], parsingErrors := List.replicate 101 ['x'] }]

/-- C7: healthy triplet with stored `delta = 10`. -/
def tDelta10 : VoltageTriplet :=
  { ts := 0, dataset := "h.log", connectorId := 1, L1 := some 230, L2 := some 220, L3 := none,
    delta := 10, status := .ok, session := .idle, sessionId := none, idTag := none,
    deviationDetails := [] }

/-- C7: one enabled file with that triplet and 150 parsing incidents. -/
def filesC7b : List FileDataM :=
  [{ name := "h.log", enabled := true, triplets := [tDelta10],
     parsingErrors := List.replicate 150 ['x'] }]

/-- C9: the text `x{"msg":"a{b}c"}!` — an object containing braces inside a
string literal, preceded by a stray character. -/
def textC9 : List Char :=
  ['x', '{', '"', 'm', 's', 'g', '"', ':', '"', 'a', '{', 'b', '}', 'c', '"', '}', '!']

/-- C9: the balanced span `{"msg":"a{b}c"}` that must be extracted. -/
def spanC9 : List Char :=
  ['{', '"', 'm', 's', 'g', '"', ':', '"', 'a', '{', 'b', '}', 'c', '"', '}']

/-- C9: the text `{"a":"\"}","b":1}` — a backslash-escaped quote followed by a
brace inside a string. -/
def textC9b : List Char :=
  ['{', '"', 'a', '"', ':', '"', '\\', '"', '}', '"', ',', '"', 'b', '"', ':', '1', '}']

/-- C9: text whose braces never balance. -/
def textC9c : List Char := ['{', '"', 'a', '"', ':', '1']

/-- C10: a voltage sample (measurand `Voltage`, phase `L1`, value `"230"`). -/
def svC10 : Jv :=
  .obj [("measurand", .str "Voltage"), ("phase", .str "L1"), ("value", .str "230")]

/-- C10: a meter entry carrying that sample at epoch 1500000000000. -/
def mvC10 : Jv := .obj [("timestamp", .num 1500000000000), ("sampledValue", .arr [svC10])]

/-- C10: a `MeterValues` object with `connectorId: 0`. -/
def objMeter0 : Jv := .obj [("connectorId", .num 0), ("meterValue", .arr [mvC10])]

/-- C10: the voltage point that `objMeter0` must yield — attributed to
connector 1. -/
def ptC10 : JvPoint :=
  { dataset := "d.log", connectorId := .num 1, phase := .L1, ts := 1500000000000, voltage := 230 }

/-- C10: a `StatusNotification` object with `connectorId: 0`. -/
def stObj0 : Jv :=
  .obj [("connectorId", .num 0), ("timestamp", .num 1500000000000), ("status", .str "Available")]

/-- C10: a `StatusNotification` object with no `connectorId` at all. -/
def stObjAbs : Jv :=
  .obj [("timestamp", .num 1500000000000), ("status", .str "Available")]

/-! ### Theorems -/

theorem filterDecideEmpty_iff (l : List ℚ) (p : ℚ → Prop) [DecidablePred p] :
    (l.filter (fun v => decide (p v))).isEmpty = true ↔ ¬ ∃ v ∈ l, p v := by
  simp [List.isEmpty_iff, List.filter_eq_nil_iff]

theorem evaluateStatus_fst (t : VoltageTriplet) (vmin vmax : ℚ) :
    (evaluateStatus t vmin vmax).1 =
      if presentVals t = [] then .ok
      else if ∃ v ∈ presentVals t, vmax < v then .over
      else if ∃ v ∈ presentVals t, v < vmin then .under
      else if 15 ≤ t.delta then .imbalance
      else .ok := by
  by_cases h0 : presentVals t = []
  · simp [evaluateStatus, h0]
  · have h0' : (presentVals t).isEmpty = false := by
      simp [List.isEmpty_iff, h0]
    by_cases hov : ∃ v ∈ presentVals t, vmax < v
    · have hb : ((presentVals t).filter (fun v => decide (vmax < v))).isEmpty = false := by
        rw [Bool.eq_false_iff]
        exact fun h => (filterDecideEmpty_iff _ _ |>.mp h) hov
      by_cases hun : ∃ v ∈ presentVals t, v < vmin
      · have hbu : ((presentVals t).filter (fun v => decide (v < vmin))).isEmpty = false := by
          rw [Bool.eq_false_iff]
          exact fun h => (filterDecideEmpty_iff _ _ |>.mp h) hun
        by_cases hd : 15 ≤ t.delta <;>
          simp [evaluateStatus, h0', hb, hbu, h0, hov, hun, hd]
      · have hbu : ((presentVals t).filter (fun v => decide (v < vmin))).isEmpty = true :=
          (filterDecideEmpty_iff _ _).mpr hun
        by_cases hd : 15 ≤ t.delta <;>
          simp [evaluateStatus, h0', hb, hbu, h0, hov, hun, hd]
    · have hb : ((presentVals t).filter (fun v => decide (vmax < v))).isEmpty = true :=
        (filterDecideEmpty_iff _ _).mpr hov
      by_cases hun : ∃ v ∈ presentVals t, v < vmin
      · have hbu : ((presentVals t).filter (fun v => decide (v < vmin))).isEmpty = false := by
          rw [Bool.eq_false_iff]
          exact fun h => (filterDecideEmpty_iff _ _ |>.mp h) hun
        by_cases hd : 15 ≤ t.delta <;>
          simp [evaluateStatus, h0', hb, hbu, h0, hov, hun, hd]
      · have hbu : ((presentVals t).filter (fun v => decide (v < vmin))).isEmpty = true :=
          (filterDecideEmpty_iff _ _).mpr hun
        by_cases hd : 15 ≤ t.delta <;>
          simp [evaluateStatus, h0', hb, hbu, h0, hov, hun, hd]

/-- **C2.** For every triplet and thresholds, `evaluateStatus` returns `over`
when any present phase exceeds `vmax`; `under` when some present phase is below
`vmin` and none exceeds `vmax`; it returns `imbalance` exactly when the phases
are within both thresholds, at least one phase is present and `delta ≥ 15`
(over/under outrank imbalance); with zero present phases it returns
`('ok', [])`. In particular a triplet with `L1 = 260`, `L2 = 200` under
`(vmin, vmax) = (207, 253)` classifies as `over`, never `under`. -/
theorem claim_C2 (t : VoltageTriplet) (vmin vmax : ℚ) :
    ((∃ v ∈ presentVals t, vmax < v) → (evaluateStatus t vmin vmax).1 = .over) ∧
    (((∃ v ∈ presentVals t, v < vmin) ∧ ∀ v ∈ presentVals t, v ≤ vmax) →
      (evaluateStatus t vmin vmax).1 = .under) ∧
    ((evaluateStatus t vmin vmax).1 = .imbalance →
      15 ≤ t.delta ∧ ∀ v ∈ presentVals t, vmin ≤ v ∧ v ≤ vmax) ∧
    ((presentVals t ≠ [] ∧ 15 ≤ t.delta ∧ ∀ v ∈ presentVals t, vmin ≤ v ∧ v ≤ vmax) →
      (evaluateStatus t vmin vmax).1 = .imbalance) ∧
    (presentVals t = [] → evaluateStatus t vmin vmax = (.ok, [])) ∧
    (evaluateStatus tC2 207 253).1 = .over := by
  refine ⟨?_, ?_, ?_, ?_, ?_, by decide⟩
  · intro hov
    have hne : presentVals t ≠ [] := by
      rcases hov with ⟨v, hv, _⟩
      exact fun h => by simp [h] at hv
    rw [evaluateStatus_fst]
    simp [hne, hov]
  · rintro ⟨hun, hle⟩
    have hne : presentVals t ≠ [] := by
      rcases hun with ⟨v, hv, _⟩
      exact fun h => by simp [h] at hv
    have hov : ¬ ∃ v ∈ presentVals t, vmax < v := by
      rintro ⟨v, hv, hgt⟩
      exact absurd (hle v hv) (not_le.mpr hgt)
    rw [evaluateStatus_fst]
    simp [hne, hov, hun]
  · intro him
    rw [evaluateStatus_fst] at him
    by_cases h0 : presentVals t = []
    · simp [h0] at him
    by_cases hov : ∃ v ∈ presentVals t, vmax < v
    · simp [h0, hov] at him
    by_cases hun : ∃ v ∈ presentVals t, v < vmin
    · simp [h0, hov, hun] at him
    by_cases hd : 15 ≤ t.delta
    · refine ⟨hd, fun v hv => ⟨?_, ?_⟩⟩
      · exact not_lt.mp (fun h => hun ⟨v, hv, h⟩)
      · exact not_lt.mp (fun h => hov ⟨v, hv, h⟩)
    · simp [h0, hov, hun, hd] at him
  · rintro ⟨hne, hd, hin⟩
    have hov : ¬ ∃ v ∈ presentVals t, vmax < v := by
      rintro ⟨v, hv, hgt⟩
      exact absurd (hin v hv).2 (not_le.mpr hgt)
    have hun : ¬ ∃ v ∈ presentVals t, v < vmin := by
      rintro ⟨v, hv, hlt⟩
      exact absurd (hin v hv).1 (not_le.mpr hlt)
    rw [evaluateStatus_fst]
    simp [hne, hov, hun, hd]
  · intro h0
    simp [evaluateStatus, h0]

/-- **C2 witness.** The claimed behaviors at concrete inputs: the `(260, 200)`
triplet is `over`; a triplet with no present phases yields `('ok', [])`. -/
theorem claim_C2_witness :
    (evaluateStatus tC2 207 253).1 = .over ∧
    evaluateStatus (freshTriplet ⟨"d", 1, .L1, 0, 0⟩) 207 253 = (.ok, []) := by
  refine ⟨(claim_C2 tC2 207 253).1 ⟨260, by decide, by decide⟩, ?_⟩
  exact (claim_C2 (freshTriplet ⟨"d", 1, .L1, 0, 0⟩) 207 253).2.2.2.2.1 (by decide)

/-- **C8 counterexample.** The claim says `parseISO` returns every numeric
epoch value as-is, including `0`; but `if (!t) return null` rejects `0`, so
`parseISO(0)` is `null`, not `0`. -/
theorem claim_C8_counterexample : ¬ (parseISO envTest (some (Jv.num 0)) = some (0 : ℚ)) := by
  decide

/-- **C8 (amended).** `parseISO` returns every *nonzero* numeric epoch value
as-is; numeric `0` (being falsy) is rejected to `null`. Every nonempty string
goes through general date parsing (`new Date`), yielding `null` exactly when
unparseable; the empty string is rejected directly by the falsiness check. -/
theorem claim_C8 (env : JsEnv) :
    (∀ q : ℚ, q ≠ 0 → parseISO env (some (.num q)) = some q) ∧
    parseISO env (some (.num 0)) = none ∧
    (∀ s : String, s ≠ "" → parseISO env (some (.str s)) = env.dateOfString s) ∧
    parseISO env (some (.str "")) = none := by
  exact ⟨fun q hq => by simp [parseISO, hq], by simp [parseISO],
    fun s hs => by simp [parseISO, hs], by simp [parseISO]⟩

/-- **C8 witness.** A nonzero epoch number passes through unchanged, and a
parseable date string resolves through the date oracle. -/
theorem claim_C8_witness :
    parseISO envTest (some (Jv.num 5)) = some 5 ∧
    parseISO envTest (some (Jv.str "1999-01-01")) = some 915148800000 := by
  refine ⟨(claim_C8 envTest).1 5 (by norm_num), ?_⟩
  rw [(claim_C8 envTest).2.2.1 "1999-01-01" (by decide)]
  rfl

/-- **C3.** Session matching scans a connector's spans from latest `startTs` to
earliest and picks the first span with
`triplet.ts + 60000 ≥ startTs ∧ triplet.ts ≤ endTs + 60000`, stopping the scan
at the first (non-matching) span whose `startTs` lies more than 10 minutes
before the triplet; no match means `idle`. For a span `[t0, t0 + 600000]` a
triplet at `t0 - 59000` matches and one at `t0 - 61000` does not. -/
theorem claim_C3 (spans : List TxSpanA) (ts : ℚ) :
    (∀ s, findActiveRev ts spans = some s → spanMatches ts s) ∧
    (∀ pre s post, spans = pre ++ s :: post →
      (∀ u ∈ pre, ¬ spanMatches ts u ∧ ¬ u.startTs < ts - 10 * 60 * 1000) →
      ((spanMatches ts s → findActiveRev ts spans = some s) ∧
       (¬ spanMatches ts s → s.startTs < ts - 10 * 60 * 1000 →
         findActiveRev ts spans = none))) ∧
    (findActive spans ts = findActiveRev ts spans.reverse) ∧
    (∀ t0 : ℚ,
      sessionOf [⟨"tx1", t0, t0 + 600000, none⟩] (t0 - 59000) = (.session, some "tx1") ∧
      sessionOf [⟨"tx1", t0, t0 + 600000, none⟩] (t0 - 61000) = (.idle, none)) := by
  refine ⟨?_, ?_, rfl, ?_⟩
  · intro s
    induction spans with
    | nil => intro h; simp [findActiveRev] at h
    | cons a rest ih =>
      intro h
      by_cases hm : spanMatches ts a
      · simp only [findActiveRev, if_pos hm, Option.some.injEq] at h
        exact h ▸ hm
      · by_cases hc : a.startTs < ts - 10 * 60 * 1000
        · simp [findActiveRev, hm, hc] at h
        · exact ih (by simpa only [findActiveRev, if_neg hm, if_neg hc] using h)
  · intro pre s post hsp
    subst hsp
    induction pre with
    | nil =>
      intro _
      constructor
      · intro hm
        simp [findActiveRev, hm]
      · intro hnm hc
        simp [findActiveRev, hnm, hc]
    | cons a pre' ih =>
      intro hpre
      have ha := hpre a (List.mem_cons_self a pre')
      have step : findActiveRev ts ((a :: pre') ++ s :: post) =
          findActiveRev ts (pre' ++ s :: post) := by
        simp only [List.cons_append, findActiveRev, if_neg ha.1, if_neg ha.2]
        rfl
      rw [step]
      exact ih (fun u hu => hpre u (List.mem_cons_of_mem a hu))
  · intro t0
    constructor
    · have hm : spanMatches (t0 - 59000) ⟨"tx1", t0, t0 + 600000, none⟩ :=
        ⟨show t0 ≤ (t0 - 59000) + 60000 by linarith,
         show (t0 - 59000) ≤ (t0 + 600000) + 60000 by linarith⟩
      simp [sessionOf, findActive, findActiveRev, hm]
    · have hnm : ¬ spanMatches (t0 - 61000) ⟨"tx1", t0, t0 + 600000, none⟩ := by
        rintro ⟨h1, -⟩
        have h1' : t0 ≤ (t0 - 61000) + 60000 := h1
        linarith
      have hc : ¬ (TxSpanA.startTs ⟨"tx1", t0, t0 + 600000, none⟩ <
          (t0 - 61000) - 10 * 60 * 1000) := by
        intro h
        have h' : t0 < (t0 - 61000) - 10 * 60 * 1000 := h
        linarith
      simp [sessionOf, findActive, findActiveRev, hnm, hc]

/-- **C3 witness.** The scan at concrete inputs: the span
`[1000000, 1600000]` is picked by a triplet at `941000` (59 s before the
start) and missed by one at `939000` (61 s before). -/
theorem claim_C3_witness :
    findActiveRev 941000 [⟨"tx1", 1000000, 1600000, none⟩] =
      some ⟨"tx1", 1000000, 1600000, none⟩ ∧
    sessionOf [⟨"tx1", 1000000, 1600000, none⟩] 941000 = (.session, some "tx1") ∧
    sessionOf [⟨"tx1", 1000000, 1600000, none⟩] 939000 = (.idle, none) := by
  refine ⟨?_, ?_, ?_⟩
  · exact ((claim_C3 [⟨"tx1", 1000000, 1600000, none⟩] 941000).2.1 []
      ⟨"tx1", 1000000, 1600000, none⟩ [] rfl (by simp)).1 ⟨by norm_num, by norm_num⟩
  · have h := ((claim_C3 [⟨"tx1", 1000000, 1600000, none⟩] 0).2.2.2 1000000).1
    norm_num at h
    exact h
  · have h := ((claim_C3 [⟨"tx1", 1000000, 1600000, none⟩] 0).2.2.2 1000000).2
    norm_num at h
    exact h

theorem extractScan_eq_spanEnd {α : Type} (jp : List Char → Option α) (text : List Char)
    (i : Nat) :
    ∀ (s : List Char) (j : Nat) (d : Int) (inStr esc : Bool),
      extractScan jp text i s j d inStr esc =
        (spanEndScan text s j d inStr esc).bind (fun e => jp (sliceChars text i e)) := by
  intro s
  induction s with
  | nil => intro j d inStr esc; rfl
  | cons ch rest ih =>
    intro j d inStr esc
    simp only [extractScan, spanEndScan]
    split_ifs <;> simp [ih]

/-- **C9.** `extractJsonFrom` returns the parsed value of the first balanced
`{…}` span starting at the first `{` at or after the offset (factored form:
locate the brace, find the balanced span end with the in-string/escape-aware
depth counter, parse the slice); it returns `none` when no `{` exists after the
offset, when the braces never balance, or when the span fails to parse; braces
inside quoted string literals (with backslash escapes honored) never affect the
depth count — `x{"msg":"a{b}c"}!` yields the full object span, and an escaped
quote before a brace (`{"a":"\"}","b":1}`) does not end the string. The Lean
function is total, modeling that the JavaScript function never raises (its only
fallible call, `JSON.parse`, is wrapped in `try`/`catch`). -/
theorem claim_C9 {α : Type} (jp : List Char → Option α) (text : List Char) (start : Nat) :
    (charIndexFrom text '{' start = none → extractJsonFrom jp text start = none) ∧
    (extractJsonFrom jp text start =
      (charIndexFrom text '{' start).bind (fun i =>
        (spanEnd text i).bind (fun j => jp (sliceChars text i j)))) ∧
    (extractJsonFrom (fun l => some l) textC9 0 = some spanC9) ∧
    (extractJsonFrom (fun l => some l) textC9b 0 = some textC9b) ∧
    (extractJsonFrom (fun l => some l) textC9c 0 = none) ∧
    (extractJsonFrom (fun _ => (none : Option α)) text start = none) := by
  have hfact : extractJsonFrom jp text start =
      (charIndexFrom text '{' start).bind (fun i =>
        (spanEnd text i).bind (fun j => jp (sliceChars text i j))) := by
    unfold extractJsonFrom spanEnd
    cases charIndexFrom text '{' start with
    | none => rfl
    | some i => simp [extractScan_eq_spanEnd]
  refine ⟨?_, hfact, by decide, by decide, by decide, ?_⟩
  · intro h
    unfold extractJsonFrom
    rw [h]
  · have h2 : extractJsonFrom (fun _ => (none : Option α)) text start =
        (charIndexFrom text '{' start).bind (fun i =>
          (spanEnd text i).bind (fun _ => (none : Option α))) := by
      unfold extractJsonFrom spanEnd
      cases charIndexFrom text '{' start with
      | none => rfl
      | some i => simp [extractScan_eq_spanEnd]
    rw [h2]
    cases charIndexFrom text '{' start with
    | none => rfl
    | some i => cases spanEnd text i <;> simp [spanEnd]

/-- **C9 witness.** Text with no `{` after the offset yields `none`. -/
theorem claim_C9_witness :
    extractJsonFrom (fun l => some l) (['a', 'b'] : List Char) 0 = none :=
  (claim_C9 (fun l => some l) ['a', 'b'] 0).1 (by decide)

/-- **C4.** A meter-sample entry whose timestamp parses to a value outside
`[MIN_REASONABLE_TS, now + 7 days]` contributes no points and no spans; it
appends exactly one incident, whose message begins with the literal
`Suspicious timestamp` and not with `Invalid timestamp`; an entry whose
timestamp fails to parse likewise appends exactly one `Invalid timestamp`
incident — the two prefixes are distinguishable. -/
theorem claim_C4 (env : JsEnv) (now : ℚ) (dataset : String) (conn : Jv) (tx : Option Jv)
    (pos : Nat) (ctx : PCtx) (mv : Jv) (tsRaw : Option Jv)
    (hget : jvGetE mv "timestamp" = .ok tsRaw) :
    (∀ dt : ℚ, parseISO env tsRaw = some dt →
      (dt < MIN_REASONABLE_TS ∨ maxReasonableTs now < dt) →
      (processEntry env now dataset conn tx pos ctx mv =
        .ok { ctx with parsingErrors := ctx.parsingErrors ++ [msgSuspicious env tsRaw dt pos] } ∧
       suspiciousMarker <+: msgSuspicious env tsRaw dt pos ∧
       ¬ invalidMarker <+: msgSuspicious env tsRaw dt pos)) ∧
    (parseISO env tsRaw = none →
      (processEntry env now dataset conn tx pos ctx mv =
        .ok { ctx with parsingErrors := ctx.parsingErrors ++ [msgInvalid env tsRaw pos] } ∧
       invalidMarker <+: msgInvalid env tsRaw pos ∧
       ¬ suspiciousMarker <+: msgInvalid env tsRaw pos)) := by
  constructor
  · intro dt hparse hbound
    refine ⟨?_, List.prefix_append _ _, ?_⟩
    · simp [processEntry, hget, hparse, hbound]
    · rintro ⟨t, ht⟩
      have h1 : (invalidMarker ++ t).headD ' ' = 'I' := rfl
      have h2 : (msgSuspicious env tsRaw dt pos).headD ' ' = 'S' := rfl
      rw [ht] at h1
      exact absurd (h1.symm.trans h2) (by decide)
  · intro hparse
    refine ⟨?_, List.prefix_append _ _, ?_⟩
    · simp [processEntry, hget, hparse]
    · rintro ⟨t, ht⟩
      have h1 : (suspiciousMarker ++ t).headD ' ' = 'S' := rfl
      have h2 : (msgInvalid env tsRaw pos).headD ' ' = 'I' := rfl
      rw [ht] at h1
      exact absurd (h1.symm.trans h2) (by decide)

/-- **C4 witness.** A sample timestamped `1999-01-01` (beneath the 2015 floor)
and one timestamped 30 days after `nowRef` (beyond `now + 7 days`) are each
excluded and logged exactly once with the `Suspicious timestamp` prefix. -/
theorem claim_C4_witness :
    processEntry envTest nowRef "d.log" (Jv.num 1) none 0 pctx0 mv1999 =
      .ok { points := [],
            parsingErrors := [msgSuspicious envTest (some (Jv.str "1999-01-01")) 915148800000 0],
            txSpans := [] } ∧
    processEntry envTest nowRef "d.log" (Jv.num 1) none 0 pctx0 mvFuture =
      .ok { points := [],
            parsingErrors := [msgSuspicious envTest (some (Jv.num 1762592000000)) 1762592000000 0],
            txSpans := [] } ∧
    suspiciousMarker <+: msgSuspicious envTest (some (Jv.str "1999-01-01")) 915148800000 0 ∧
    ¬ invalidMarker <+: msgSuspicious envTest (some (Jv.str "1999-01-01")) 915148800000 0 := by
  have h1 := (claim_C4 envTest nowRef "d.log" (.num 1) none 0 pctx0 mv1999
      (some (.str "1999-01-01")) rfl).1 915148800000 rfl
      (Or.inl (by norm_num [MIN_REASONABLE_TS]))
  have h2 := (claim_C4 envTest nowRef "d.log" (.num 1) none 0 pctx0 mvFuture
      (some (.num 1762592000000)) rfl).1 1762592000000 rfl
      (Or.inr (by norm_num [maxReasonableTs, nowRef]))
  exact ⟨h1.1, h2.1, h1.2.1, h1.2.2⟩

/-- **C5 (code bug).** The claim (and the parser's stated philosophy) says the
whole-file parse always runs to completion, in particular when a `MeterValues`
payload has a `meterValue` field that is present but not an array. In fact
`for (const mv of (obj.meterValue || []))` only guards *falsy* values: a truthy
non-iterable `meterValue` (here the number `42`) makes the `for‥of` throw a
`TypeError`, aborting the file's parse. A falsy or absent `meterValue` is
skipped as claimed. -/
theorem claim_C5_eval :
    processMeterObj envTest nowRef "f.log" 0 pctx0 badMeterObj =
      .error "TypeError: value is not iterable" ∧
    processMeterObj envTest nowRef "f.log" 0 pctx0 (.obj []) = .ok pctx0 ∧
    processMeterObj envTest nowRef "f.log" 0 pctx0 (.obj [("meterValue", .null)]) =
      .ok pctx0 := ⟨rfl, rfl, rfl⟩

/-- **C10.** `obj.connectorId || 1` sends every falsy connector id (including
`0`) and an absent field to connector `1` for meter data, keeping truthy values
as-is — concretely, a `MeterValues` object with `connectorId: 0` yields a point
attributed to connector 1 — while `Number(obj.connectorId ?? 0)` records a
StatusNotification with connector id `0` or no connector id on the
connector-0 timeline. -/
theorem maxReasonable_nowRef : maxReasonableTs nowRef = 1760604800000 := by
  norm_num [maxReasonableTs, nowRef]

theorem claim_C10 :
    (∀ v : Jv, jvTruthy v = false → resolveMeterConn (some v) = .num 1) ∧
    resolveMeterConn none = .num 1 ∧
    (∀ v : Jv, jvTruthy v = true → resolveMeterConn (some v) = v) ∧
    processMeterObj envTest nowRef "d.log" 0 pctx0 objMeter0 =
      .ok { points := [ptC10], parsingErrors := [], txSpans := [] } ∧
    (handleStatusNotification envTest nowRef 0 stctx0 stObj0).statusTimeline =
      [(some 0, [⟨1500000000000, some "Available", none⟩])] ∧
    (handleStatusNotification envTest nowRef 0 stctx0 stObjAbs).statusTimeline =
      [(some 0, [⟨1500000000000, some "Available", none⟩])] ∧
    (∀ (env : JsEnv) (obj : Jv), nullishGet obj "connectorId" = some (.num 0) →
      statusConnOf env obj = some 0) ∧
    (∀ (env : JsEnv) (obj : Jv), nullishGet obj "connectorId" = none →
      statusConnOf env obj = some 0) := by
  refine ⟨?_, rfl, ?_, ?_, ?_, ?_, ?_, ?_⟩
  · intro v hv
    simp [resolveMeterConn, hv]
  · intro v hv
    simp [resolveMeterConn, hv]
  · simp [processMeterObj, processEntries, processEntry, processSamples, processSample,
      objMeter0, mvC10, svC10, jvGet, jvGetE, jvTruthy, nullishGet, resolveMeterConn,
      iterOf, parseISO, maxReasonable_nowRef, MIN_REASONABLE_TS, isVoltageMeasurand,
      normPhase, jvToStr, envTest, replaceFirstComma, ptC10, pctx0, strHasSub,
      lastDotSegment, splitOnDot]
    rfl
  · simp [handleStatusNotification, statusConnOf, readAnyTimestamp, nullishGet, jvGet,
      jvTruthy, parseISO, toNumber, maxReasonable_nowRef, MIN_REASONABLE_TS, truthyStr,
      optChainGet, pushStatusEntry, stctx0, stObj0, envTest, jvToStr]
    rfl
  · simp [handleStatusNotification, statusConnOf, readAnyTimestamp, nullishGet, jvGet,
      jvTruthy, parseISO, toNumber, maxReasonable_nowRef, MIN_REASONABLE_TS, truthyStr,
      optChainGet, pushStatusEntry, stctx0, stObjAbs, envTest, jvToStr]
    rfl
  · intro env obj h
    simp [statusConnOf, h, toNumber]
  · intro env obj h
    simp [statusConnOf, h, toNumber]

/-- **C10 witness.** The falsy id `0` resolves to connector 1 for meter data,
and the concrete StatusNotification object with `connectorId: 0` resolves to
timeline key 0. -/
theorem claim_C10_witness :
    resolveMeterConn (some (Jv.num 0)) = .num 1 ∧ statusConnOf envTest stObj0 = some 0 :=
  ⟨claim_C10.1 (Jv.num 0) (by decide), claim_C10.2.2.2.2.2.2.1 envTest stObj0 rfl⟩

theorem statsFold_deepDip (l : List VoltageTriplet) (s : StatsM) :
    (l.foldl statsFold s).cntDeepDip =
      s.cntDeepDip +
        (l.map (fun t => (presentVals t).countP (fun v => decide (v < 190)))).sum := by
  induction l generalizing s with
  | nil => simp
  | cons t rest ih =>
    simp only [List.foldl_cons, ih, statsFold, List.map_cons, List.sum_cons]
    omega

theorem presentVals_reEval (vmin vmax : ℚ) (t : VoltageTriplet) :
    presentVals (reEvalTriplet vmin vmax t) = presentVals t := rfl

/-- **C6 counterexample.** The claim says `cntDeepDip` counts *triplets*
containing a sub-190 phase, each once. For a single triplet with `L1 = 180` and
`L2 = 185` the engine counts 2 (the increment sits inside the per-phase loop),
while the number of such triplets is 1. -/
theorem claim_C6_counterexample :
    (analysisStats filesC6 207 253).cntDeepDip = 2 ∧
    deepDipTripletCount filesC6 207 253 = 1 ∧
    (analysisStats filesC6 207 253).cntDeepDip ≠ deepDipTripletCount filesC6 207 253 := by
  decide

/-- **C6 (amended).** `cntDeepDip` equals the total number of present *phase
values* strictly below 190 across the re-evaluated, time-sorted triplet list of
the enabled files (a triplet with two sub-190 phases counts twice) — still
independent of the configured `vmin`/`vmax` thresholds. -/
theorem claim_C6 (files : List FileDataM) (vmin vmax : ℚ) :
    ((analysisStats files vmin vmax).cntDeepDip =
      ((allDataOf files vmin vmax).map
        (fun t => (presentVals t).countP (fun v => decide (v < 190)))).sum) ∧
    (∀ vmin' vmax' : ℚ,
      (analysisStats files vmin vmax).cntDeepDip =
        (analysisStats files vmin' vmax').cntDeepDip) := by
  have key : ∀ (a b : ℚ),
      (analysisStats files a b).cntDeepDip =
        ((allDataOf files a b).map
          (fun t => (presentVals t).countP (fun v => decide (v < 190)))).sum := by
    intro a b
    by_cases h : (allDataOf files a b).isEmpty
    · have h0 : allDataOf files a b = [] := by simpa [List.isEmpty_iff] using h
      simp [analysisStats, h, h0]
    · have h' : (allDataOf files a b).isEmpty = false := by
        simp [List.isEmpty_iff] at h ⊢
        exact h
      simp [analysisStats, h', statsFold_deepDip]
  have sumEq : ∀ (a b : ℚ),
      ((allDataOf files a b).map
        (fun t => (presentVals t).countP (fun v => decide (v < 190)))).sum =
      ((((files.filter (fun f => f.enabled)).map (fun f => f.triplets)).flatten).map
        (fun t => (presentVals t).countP (fun v => decide (v < 190)))).sum := by
    intro a b
    have hperm : List.Perm
        ((allDataOf files a b).map
          (fun t => (presentVals t).countP (fun v => decide (v < 190))))
        (((((files.filter (fun f => f.enabled)).map (fun f => f.triplets)).flatten).map
            (reEvalTriplet a b)).map
          (fun t => (presentVals t).countP (fun v => decide (v < 190)))) :=
      (List.perm_insertionSort _ _).map _
    rw [hperm.sum_eq, List.map_map]
    rfl
  refine ⟨key vmin vmax, fun vmin' vmax' => ?_⟩
  rw [key vmin vmax, key vmin' vmax', sumEq vmin vmax, sumEq vmin' vmax']

theorem statsFold_counts (l : List VoltageTriplet) (s : StatsM) :
    (l.foldl statsFold s).cntInvalidDates = s.cntInvalidDates ∧
    (l.foldl statsFold s).riskLevel = s.riskLevel := by
  induction l generalizing s with
  | nil => exact ⟨rfl, rfl⟩
  | cons t rest ih => simpa [statsFold] using ih _

/-- **C7 counterexample.** The claim says incident count `> 100` forces
`riskLevel = high`. But `analysisStats` returns early (before risk
classification) whenever the flattened triplet list is empty: one enabled file
with 101 incidents and no triplets yields `riskLevel = low`. -/
theorem claim_C7_counterexample :
    (analysisStats filesC7 207 253).cntInvalidDates = 101 ∧
    (analysisStats filesC7 207 253).cntDeepDip = 0 ∧
    (analysisStats filesC7 207 253).maxDelta = 0 ∧
    (analysisStats filesC7 207 253).riskLevel = .low := by
  decide

/-- **C7 (amended).** Whenever at least one triplet is present, the aggregate
risk is classified in the claimed precedence order — `high` on any deep dip,
`maxDelta > 30` or more than 100 incidents; else `medium` on more than 50
status violations or more than 10 incidents; else `low`. With an *empty*
triplet list the function returns early and the risk stays `low` regardless of
the incident count. -/
theorem claim_C7 (files : List FileDataM) (vmin vmax : ℚ) :
    (allDataOf files vmin vmax ≠ [] →
      (analysisStats files vmin vmax).riskLevel =
        (if 0 < (analysisStats files vmin vmax).cntDeepDip ∨
            30 < (analysisStats files vmin vmax).maxDelta ∨
            100 < (analysisStats files vmin vmax).cntInvalidDates then .high
         else if 50 < (analysisStats files vmin vmax).cntUnder +
                (analysisStats files vmin vmax).cntOver +
                  (analysisStats files vmin vmax).cntImbalance ∨
              10 < (analysisStats files vmin vmax).cntInvalidDates then .medium
         else .low)) ∧
    (allDataOf files vmin vmax = [] →
      (analysisStats files vmin vmax).riskLevel = .low) := by
  constructor
  · intro hne
    have h' : (allDataOf files vmin vmax).isEmpty = false := by
      simp [List.isEmpty_iff, hne]
    simp [analysisStats, h']
  · intro h0
    have h : (allDataOf files vmin vmax).isEmpty = true := by
      simp [List.isEmpty_iff, h0]
    simp [analysisStats, h]

set_option maxRecDepth 100000 in
/-- **C7 witness.** The claim's concrete escalation case: a file with one
healthy triplet (`delta = 10`, no deep dip) and 150 incidents classifies as
`high` purely through the incident-count rule. -/
theorem claim_C7_witness :
    (analysisStats filesC7b 207 253).riskLevel = .high ∧
    (analysisStats filesC7b 207 253).cntDeepDip = 0 ∧
    (analysisStats filesC7b 207 253).maxDelta = 10 ∧
    (analysisStats filesC7b 207 253).cntInvalidDates = 150 := by
  have h := (claim_C7 filesC7b 207 253).1 (by decide)
  rw [h]
  refine ⟨?_, by decide, by decide, by decide⟩
  decide

/-! ### C1 lemma chain: the triplet map fold -/

theorem keyOfT_setPhase (t : VoltageTriplet) (p : VoltagePoint) :
    keyOfT (setPhase t p) = keyOfT t := by
  cases hp : p.phase <;> simp [setPhase, keyOfT, hp]

theorem keyOfT_fresh (p : VoltagePoint) :
    keyOfT (setPhase (freshTriplet p) p) = keyOfP p := by
  rw [keyOfT_setPhase]; rfl

theorem containsK_addPoint (m : List VoltageTriplet) (p : VoltagePoint) (k : String × ℚ × ℚ) :
    containsK (addPoint m p) k = (containsK m k || decide (keyOfP p = k)) := by
  induction m with
  | nil => simp [addPoint, containsK, keyOfT_fresh]
  | cons t rest ih =>
    by_cases h : keyOfT t = keyOfP p
    · have e1 : containsK (addPoint (t :: rest) p) k =
          (decide (keyOfP p = k) || containsK rest k) := by
        simp [addPoint, if_pos h, containsK, List.any_cons, keyOfT_setPhase, h]
      have e2 : containsK (t :: rest) k = (decide (keyOfP p = k) || containsK rest k) := by
        simp [containsK, List.any_cons, h]
      rw [e1, e2]
      cases hk : (decide (keyOfP p = k)) <;> cases hr : containsK rest k <;> simp [hk, hr]
    · simp only [addPoint, if_neg h, containsK, List.any_cons]
      have ih' : (addPoint rest p).any (fun t => decide (keyOfT t = k)) =
          (rest.any (fun t => decide (keyOfT t = k)) || decide (keyOfP p = k)) := ih
      rw [ih', Bool.or_assoc]

theorem containsK_fold (ps : List VoltagePoint) (m : List VoltageTriplet) (k : String × ℚ × ℚ) :
    containsK (ps.foldl addPoint m) k =
      (containsK m k || ps.any (fun p => decide (keyOfP p = k))) := by
  induction ps generalizing m with
  | nil => simp
  | cons p rest ih =>
    simp only [List.foldl_cons, List.any_cons, ih, containsK_addPoint]
    rw [Bool.or_assoc]

theorem keysOf_addPoint (m : List VoltageTriplet) (p : VoltagePoint) :
    keysOf (addPoint m p) =
      if containsK m (keyOfP p) then keysOf m else keysOf m ++ [keyOfP p] := by
  induction m with
  | nil => simp [addPoint, keysOf, containsK, keyOfT_fresh]
  | cons t rest ih =>
    by_cases h : keyOfT t = keyOfP p
    · have hc : containsK (t :: rest) (keyOfP p) = true := by
        simp [containsK, List.any_cons, h]
      simp [addPoint, if_pos h, keysOf, hc, keyOfT_setPhase]
    · have hc : containsK (t :: rest) (keyOfP p) = containsK rest (keyOfP p) := by
        simp [containsK, List.any_cons, h]
      simp only [addPoint, if_neg h, keysOf, List.map_cons, hc]
      rw [show (addPoint rest p).map keyOfT = keysOf (addPoint rest p) from rfl, ih]
      by_cases h2 : containsK rest (keyOfP p)
      · simp [h2, keysOf]
      · simp [h2, keysOf]

theorem not_mem_keysOf_of_containsK_false {m : List VoltageTriplet} {k : String × ℚ × ℚ}
    (h : containsK m k = false) : k ∉ keysOf m := by
  intro hk
  simp only [keysOf, List.mem_map] at hk
  obtain ⟨t, ht, hkey⟩ := hk
  simp only [containsK, List.any_eq_false, decide_eq_true_eq] at h
  exact h t ht hkey

theorem nodup_keysOf_addPoint {m : List VoltageTriplet} (p : VoltagePoint)
    (h : (keysOf m).Nodup) : (keysOf (addPoint m p)).Nodup := by
  rw [keysOf_addPoint]
  by_cases hc : containsK m (keyOfP p)
  · simpa [hc] using h
  · have hc' : containsK m (keyOfP p) = false := by simpa using hc
    have hnm := not_mem_keysOf_of_containsK_false hc'
    simp [hc', List.nodup_append, h, hnm]

theorem nodup_keysOf_fold (ps : List VoltagePoint) (m : List VoltageTriplet)
    (h : (keysOf m).Nodup) : (keysOf (ps.foldl addPoint m)).Nodup := by
  induction ps generalizing m with
  | nil => exact h
  | cons p rest ih => exact ih _ (nodup_keysOf_addPoint p h)

theorem countK_eq_zero_of_not_contains {m : List VoltageTriplet} {k : String × ℚ × ℚ}
    (h : containsK m k = false) : countK m k = 0 := by
  rw [countK, List.countP_eq_zero]
  intro t ht
  simp only [containsK, List.any_eq_false, decide_eq_true_eq] at h
  simp [h t ht]

theorem countK_nodup (m : List VoltageTriplet) (k : String × ℚ × ℚ)
    (h : (keysOf m).Nodup) : countK m k = if containsK m k then 1 else 0 := by
  induction m with
  | nil => simp [countK, containsK]
  | cons t rest ih =>
    have h' : (keyOfT t :: keysOf rest).Nodup := by simpa [keysOf] using h
    obtain ⟨hhd, hrest⟩ := List.nodup_cons.mp h'
    by_cases hk : keyOfT t = k
    · subst hk
      have hcr : containsK rest (keyOfT t) = false := by
        cases hcc : containsK rest (keyOfT t) with
        | false => rfl
        | true =>
          exfalso
          simp only [containsK, List.any_eq_true, decide_eq_true_eq] at hcc
          obtain ⟨u, hu, hku⟩ := hcc
          exact hhd (by simpa [keysOf, hku] using List.mem_map_of_mem keyOfT hu)
      have hz : countK rest (keyOfT t) = 0 := countK_eq_zero_of_not_contains hcr
      simp only [countK, List.countP_cons, containsK, List.any_cons, decide_eq_true_eq] at hz ⊢
      simp [hz]
    · simp only [countK, List.countP_cons, containsK, List.any_cons] at ih ⊢
      simp [hk, ih hrest]

theorem lookupK_addPoint (m : List VoltageTriplet) (p : VoltagePoint) (k : String × ℚ × ℚ) :
    lookupK (addPoint m p) k =
      if keyOfP p = k then
        some (setPhase ((lookupK m k).getD (freshTriplet p)) p)
      else lookupK m k := by
  induction m with
  | nil =>
    by_cases h : keyOfP p = k <;>
      simp [addPoint, lookupK, List.find?, keyOfT_setPhase, h,
        show keyOfT (freshTriplet p) = keyOfP p from rfl]
  | cons t rest ih =>
    by_cases h : keyOfT t = keyOfP p
    · by_cases hk : keyOfP p = k
      · simp [addPoint, if_pos h, lookupK, List.find?, keyOfT_setPhase, h, hk]
      · have h2 : ¬ (keyOfT t = k) := fun he => hk (h.symm.trans he)
        simp [addPoint, if_pos h, lookupK, List.find?, keyOfT_setPhase, h, hk, h2]
    · by_cases hk : keyOfT t = k
      · have hpk : ¬ (keyOfP p = k) := fun he => h (hk.trans he.symm)
        simp only [addPoint, if_neg h]
        rw [if_neg hpk]
        simp [lookupK, List.find?, hk]
      · simp only [addPoint, if_neg h, lookupK, List.find?] at ih ⊢
        simpa [hk] using ih

theorem phP_setPhase (t : VoltageTriplet) (p : VoltagePoint) (ph : Phase) :
    phP (setPhase t p) ph = (phP t ph || decide (p.phase = ph)) := by
  cases hp : p.phase <;> cases ph <;> simp [setPhase, phP, hp]

theorem phP_fresh (p : VoltagePoint) (ph : Phase) : phP (freshTriplet p) ph = false := by
  cases ph <;> rfl

theorem phP_lookup_fold (ps : List VoltagePoint) :
    ∀ (m : List VoltageTriplet) (k : String × ℚ × ℚ) (t : VoltageTriplet) (ph : Phase),
      lookupK (ps.foldl addPoint m) k = some t →
      phP t ph = ((lookupK m k).elim false (fun t0 => phP t0 ph) ||
        ps.any (fun p => decide (keyOfP p = k) && decide (p.phase = ph))) := by
  induction ps with
  | nil =>
    intro m k t ph h
    simp only [List.foldl_nil] at h
    simp [h]
  | cons p rest ih =>
    intro m k t ph h
    rw [List.foldl_cons] at h
    rw [ih (addPoint m p) k t ph h, lookupK_addPoint]
    by_cases hk : keyOfP p = k
    · cases hl : lookupK m k with
      | none => simp [hk, hl, phP_setPhase, phP_fresh]
      | some t0 => simp [hk, hl, phP_setPhase, Bool.or_assoc]
    · simp [hk]

theorem mem_addPoint {t : VoltageTriplet} {m : List VoltageTriplet} {p : VoltagePoint}
    (h : t ∈ addPoint m p) : t ∈ m ∨ ∃ t0, t = setPhase t0 p := by
  induction m with
  | nil =>
    simp only [addPoint, List.mem_singleton] at h
    exact Or.inr ⟨freshTriplet p, h⟩
  | cons a rest ih =>
    by_cases hk : keyOfT a = keyOfP p
    · simp only [addPoint, if_pos hk, List.mem_cons] at h
      rcases h with h | h
      · exact Or.inr ⟨a, h⟩
      · exact Or.inl (List.mem_cons_of_mem _ h)
    · simp only [addPoint, if_neg hk, List.mem_cons] at h
      rcases h with h | h
      · exact Or.inl (by simp [h])
      · rcases ih h with h' | h'
        · exact Or.inl (List.mem_cons_of_mem _ h')
        · exact Or.inr h'

theorem hasPhase_setPhase (t0 : VoltageTriplet) (p : VoltagePoint) :
    presentVals (setPhase t0 p) ≠ [] := by
  cases hp : p.phase <;>
    simp only [setPhase, presentVals, hp] <;>
    cases t0.L1 <;> cases t0.L2 <;> cases t0.L3 <;> simp

theorem mem_fold_hasPhase (ps : List VoltagePoint) :
    ∀ (m : List VoltageTriplet), (∀ t ∈ m, presentVals t ≠ []) →
      ∀ t ∈ ps.foldl addPoint m, presentVals t ≠ [] := by
  induction ps with
  | nil => intro m hm; simpa using hm
  | cons p rest ih =>
    intro m hm t ht
    rw [List.foldl_cons] at ht
    refine ih (addPoint m p) ?_ t ht
    intro u hu
    rcases mem_addPoint hu with h | ⟨t0, rfl⟩
    · exact hm u h
    · exact hasPhase_setPhase t0 p

theorem finalizeOne_isSome (vmin vmax : ℚ) (spans : ℚ → List TxSpanA)
    (t : VoltageTriplet) (h : presentVals t ≠ []) :
    (finalizeOne vmin vmax spans t).isSome = true := by
  have he : (presentVals t).isEmpty = false := by simp [List.isEmpty_iff, h]
  cases hf : findActive (spans t.connectorId) t.ts with
  | none => simp [finalizeOne, he, hf]
  | some s =>
    cases hi : s.idTag with
    | none => simp [finalizeOne, he, hf, hi]
    | some tag =>
      by_cases htag : tag = "" <;> simp [finalizeOne, he, hf, hi, htag]

theorem keyOfT_finalizeOne (vmin vmax : ℚ) (spans : ℚ → List TxSpanA)
    {t t' : VoltageTriplet} (h : finalizeOne vmin vmax spans t = some t') :
    keyOfT t' = keyOfT t := by
  by_cases he : (presentVals t).isEmpty
  · simp [finalizeOne, he] at h
  · have he' : (presentVals t).isEmpty = false := by simpa using he
    cases hf : findActive (spans t.connectorId) t.ts with
    | none =>
      simp only [finalizeOne, he', Bool.false_eq_true, if_false, hf] at h
      rw [← Option.some.inj h]
      rfl
    | some s =>
      cases hi : s.idTag with
      | none =>
        simp only [finalizeOne, he', Bool.false_eq_true, if_false, hf, hi] at h
        rw [← Option.some.inj h]
        rfl
      | some tag =>
        simp only [finalizeOne, he', Bool.false_eq_true, if_false, hf, hi] at h
        by_cases htag : tag = ""
        · rw [if_pos htag] at h
          rw [← Option.some.inj h]
          rfl
        · rw [if_neg htag] at h
          rw [← Option.some.inj h]
          rfl

theorem finalizeOne_eq_some (vmin vmax : ℚ) (spans : ℚ → List TxSpanA)
    (t : VoltageTriplet) (h : presentVals t ≠ []) :
    ∃ t', finalizeOne vmin vmax spans t = some t' ∧ keyOfT t' = keyOfT t := by
  obtain ⟨t', ht'⟩ := Option.isSome_iff_exists.mp (finalizeOne_isSome vmin vmax spans t h)
  exact ⟨t', ht', keyOfT_finalizeOne vmin vmax spans ht'⟩

theorem countP_filterMap_finalize (vmin vmax : ℚ) (spans : ℚ → List TxSpanA)
    (k : String × ℚ × ℚ) :
    ∀ (m : List VoltageTriplet), (∀ t ∈ m, presentVals t ≠ []) →
      ((m.filterMap (finalizeOne vmin vmax spans)).countP
        (fun t => decide (keyOfT t = k))) = countK m k := by
  intro m
  induction m with
  | nil => intro _; simp [countK]
  | cons t rest ih =>
    intro h
    obtain ⟨t', hsome, hkey⟩ :=
      finalizeOne_eq_some vmin vmax spans t (h t (List.mem_cons_self t rest))
    have ih' := ih (fun u hu => h u (List.mem_cons_of_mem t hu))
    simp [List.filterMap_cons, hsome, List.countP_cons, countK, hkey, ih']

theorem any_of_perm {α : Type} {l₁ l₂ : List α} (h : List.Perm l₁ l₂) (f : α → Bool) :
    l₁.any f = l₂.any f := by
  cases h1 : l₁.any f <;> cases h2 : l₂.any f
  · rfl
  · exfalso
    rw [List.any_eq_false] at h1
    rw [List.any_eq_true] at h2
    obtain ⟨x, hx, hfx⟩ := h2
    exact (h1 x (h.mem_iff.mpr hx)) hfx
  · exfalso
    rw [List.any_eq_false] at h2
    rw [List.any_eq_true] at h1
    obtain ⟨x, hx, hfx⟩ := h1
    exact (h2 x (h.mem_iff.mp hx)) hfx
  · rfl

theorem roundTs_1000000 : roundTs 1000000 = 1000000 := by
  have h : ((1000000 : ℚ) / 1000) = ((1000 : ℤ) : ℚ) := by norm_num
  rw [roundTs, h, Int.floor_intCast]
  norm_num

theorem roundTs_1000500 : roundTs 1000500 = 1000000 := by
  have h : ⌊(1000500 : ℚ) / 1000⌋ = (1000 : ℤ) :=
    Int.floor_eq_iff.mpr ⟨by norm_num, by norm_num⟩
  rw [roundTs, h]
  norm_num

/-- **C1.** Accepted points are folded into the triplet map keyed by
`(dataset, connectorId, floor(ts/1000)*1000)`: each key occurring among the
points owns exactly one map entry; the entry's phase slot is populated exactly
when some point with that key carries that phase (a phase not observed in the
second stays `none`); finalization keeps exactly one output triplet per key.
Concretely, two readings for connector 5 of `a.log` with phases L1/L2 in the
same calendar second produce the single merged triplet with both phases set. -/
theorem claim_C1 (points : List VoltagePoint) (vmin vmax : ℚ)
    (spansByConn : ℚ → List TxSpanA) (k : String × ℚ × ℚ) :
    (countK (buildTriplets points) k =
      if points.any (fun p => decide (keyOfP p = k)) then 1 else 0) ∧
    (∀ t, lookupK (buildTriplets points) k = some t →
      ∀ ph, phP t ph =
        points.any (fun p => decide (keyOfP p = k) && decide (p.phase = ph))) ∧
    ((parsedTriplets vmin vmax spansByConn points).countP
        (fun t => decide (keyOfT t = k)) = countK (buildTriplets points) k) ∧
    parsedTriplets 207 253 (fun _ => []) pointsC1 = [tripletC1] := by
  have hperm : List.Perm (sortPoints points) points := List.perm_insertionSort _ points
  refine ⟨?_, ?_, ?_, ?_⟩
  · rw [buildTriplets,
      countK_nodup _ _ (nodup_keysOf_fold (sortPoints points) [] (by simp [keysOf])),
      containsK_fold]
    have h0 : containsK [] k = false := rfl
    rw [h0, Bool.false_or, any_of_perm hperm]
  · intro t ht ph
    rw [buildTriplets] at ht
    have h := phP_lookup_fold (sortPoints points) [] k t ph ht
    have h0 : lookupK [] k = none := rfl
    rw [h0] at h
    simpa [any_of_perm hperm] using h
  · have hmem : ∀ t ∈ buildTriplets points, presentVals t ≠ [] :=
      mem_fold_hasPhase (sortPoints points) [] (by simp)
    have hp := List.perm_insertionSort (fun a b => a.ts ≤ b.ts)
      ((buildTriplets points).filterMap (finalizeOne vmin vmax spansByConn))
    rw [parsedTriplets, List.Perm.countP_eq _ hp]
    exact countP_filterMap_finalize vmin vmax spansByConn k (buildTriplets points) hmem
  · norm_num [parsedTriplets, buildTriplets, sortPoints, pointsC1, List.insertionSort,
      List.orderedInsert, addPoint, keyOfP, keyOfT, roundTs_1000000, roundTs_1000500,
      freshTriplet, setPhase, finalizeOne, presentVals, evaluateStatus, findActive,
      findActiveRev, sessionOf, tripletC1, max_def, min_def, List.filterMap,
      List.foldl, List.filter]

set_option maxRecDepth 10000 in
/-- **C1 witness.** At the two concrete same-second readings: the map holds
exactly one entry under the merged key, its L1 and L2 slots are populated, its
L3 slot is not, and finalization yields the single merged triplet. -/
theorem claim_C1_witness :
    countK (buildTriplets pointsC1) ("a.log", 5, 1000000) = 1 ∧
    phP tripletC1mid .L1 = true ∧ phP tripletC1mid .L2 = true ∧
    phP tripletC1mid .L3 = false ∧
    parsedTriplets 207 253 (fun _ => []) pointsC1 = [tripletC1] := by
  have h := claim_C1 pointsC1 207 253 (fun _ => []) ("a.log", 5, 1000000)
  have hbuild : buildTriplets pointsC1 = [tripletC1mid] := by
    norm_num [buildTriplets, sortPoints, pointsC1, List.insertionSort, List.orderedInsert,
      addPoint, keyOfP, keyOfT, roundTs_1000000, roundTs_1000500, freshTriplet, setPhase,
      tripletC1mid]
  have hlook : lookupK (buildTriplets pointsC1) ("a.log", 5, 1000000) = some tripletC1mid := by
    rw [hbuild]
    norm_num [lookupK, List.find?, keyOfT, tripletC1mid]
  refine ⟨?_, ?_, ?_, ?_, h.2.2.2⟩
  · rw [h.1]
    norm_num [pointsC1, keyOfP, roundTs_1000000]
  · rw [h.2.1 tripletC1mid hlook .L1]
    norm_num [pointsC1, keyOfP, roundTs_1000000]
  · rw [h.2.1 tripletC1mid hlook .L2]
    norm_num [pointsC1, keyOfP, roundTs_1000000, roundTs_1000500]
  · rw [h.2.1 tripletC1mid hlook .L3]
    norm_num [pointsC1, keyOfP, roundTs_1000000, roundTs_1000500]
    exact ⟨by decide, by decide⟩

end VAP
